import Mathlib

/-!
Verification development for the cluster resource coordinator's
weight-update handler, reconciliation engine and allocator
filter/suppression mechanics.

The weight-update path (`update`, `_update`, `rescindOffers`) is embedded
from `src/master/weights_handler.cpp`.  The reconciliation engine and the
allocator are present in this snapshot only through their tests, so those
parts are modelled from the specification (each such definition carries a
doc comment starting `Modelled from the spec:`).
-/

namespace Weights

/-- A `WeightInfo` protobuf entry: a role name and its fairness weight
(`weights_handler.cpp`, `WeightInfo`).  Weights are modelled as rationals. -/
structure WeightInfo where
  role : String
  weight : Rat
deriving DecidableEq, Repr

/-- An outstanding offer as the weights handler sees it: identity, owning
framework, agent, the role of the owning framework, and its resources. -/
structure WOffer where
  offerId : Nat
  frameworkId : Nat
  slaveId : Nat
  role : String
  resources : List (String × Nat)
deriving DecidableEq, Repr

/-- A registered agent (slave) with its set of outstanding offers
(`master->slaves.registered`, `slave->offers`). -/
structure WSlave where
  slaveId : Nat
  offers : List WOffer
deriving DecidableEq, Repr

/-- The master state touched by the weights handler: the weight table
(`master->weights`), the set of roles with at least one registered
framework (`master->activeRoles`), the registered agents with their
outstanding offers, the optional role whitelist, and a log of the
resources returned to the allocator via `recoverResources`. -/
structure WMasterState where
  weights : List (String × Rat)
  activeRoles : List String
  registeredSlaves : List WSlave
  whitelist : Option (List String)
  recovered : List WOffer
deriving DecidableEq, Repr

/-- `Master::isWhitelistedRole`: every role is whitelisted when no
whitelist is configured, otherwise membership decides. -/
def isWhitelistedRole (m : WMasterState) (role : String) : Bool :=
  match m.whitelist with
  | none => true
  | some l => l.contains role

/-- The loop guard of `WeightsHandler::rescindOffers`
(weights_handler.cpp:224-238): rescind iff at least one updated role has a
registered framework. -/
def rescindCheck (m : WMasterState) (infos : List WeightInfo) : Bool :=
  infos.any (fun wi => m.activeRoles.contains wi.role)

/-- `WeightsHandler::rescindOffers` (weights_handler.cpp:221-253): when at
least one updated role is active, every outstanding offer at every
registered agent is rescinded — `recoverResources` is called for each and
the offer is removed. -/
def rescindOffers (m : WMasterState) (infos : List WeightInfo) : WMasterState :=
  if rescindCheck m infos then
    { m with
      registeredSlaves := m.registeredSlaves.map (fun s => { s with offers := [] }),
      recovered := m.recovered ++ (m.registeredSlaves.map (fun s => s.offers)).flatten }
  else m

/-- One assignment `master->weights[role] = weight` on the association-list
weight table. -/
def setWeight (ws : List (String × Rat)) (role : String) (w : Rat) :
    List (String × Rat) :=
  if ws.any (fun p => p.1 == role) then
    ws.map (fun p => if p.1 == role then (p.1, w) else p)
  else
    ws ++ [(role, w)]

/-- The responses of the weights handler that matter here. -/
inductive WResponse where
  | badRequest (msg : String)
  | forbidden
  | ok
deriving DecidableEq, Repr

/-- `WeightsHandler::_update` (weights_handler.cpp:185-218): after the
registry apply succeeds, commit every validated weight to the weight
table, then rescind offers per `rescindOffers`, and answer OK. -/
def _update (m : WMasterState) (infos : List WeightInfo) :
    WResponse × WMasterState :=
  let m1 := { m with
    weights := infos.foldl (fun ws wi => setWeight ws wi.role wi.weight) m.weights }
  (WResponse.ok, rescindOffers m1 infos)

/-- The validation loop of `WeightsHandler::update`
(weights_handler.cpp:143-172): trim each role, require `roles::validate`
(passed in as `validRole`), the whitelist, and a strictly positive
weight; the first failure rejects the whole request. -/
def validateInfos (validRole : String → Bool) (m : WMasterState) :
    List WeightInfo → Except String (List WeightInfo)
  | [] => Except.ok []
  | wi :: rest =>
    let role := wi.role.trim
    if !validRole role then
      Except.error ("Invalid role " ++ role)
    else if !isWhitelistedRole m role then
      Except.error ("Unknown role " ++ role)
    else if wi.weight ≤ 0 then
      Except.error ("Invalid weight for role " ++ role)
    else
      match validateInfos validRole m rest with
      | Except.error e => Except.error e
      | Except.ok vs => Except.ok ({ role := role, weight := wi.weight } :: vs)

/-- `WeightsHandler::update` (weights_handler.cpp:117-182): validate all
entries before any mutation; on any validation failure answer BadRequest
with the master state untouched; otherwise, subject to authorization,
apply `_update`. -/
def update (validRole : String → Bool) (authorized : Bool)
    (m : WMasterState) (infos : List WeightInfo) : WResponse × WMasterState :=
  match validateInfos validRole m infos with
  | Except.error e => (WResponse.badRequest e, m)
  | Except.ok validated =>
    if authorized then _update m validated else (WResponse.forbidden, m)

end Weights

namespace Recon

/-- Task states of the Task Ledger state machine (§4.3): STAGING and
RUNNING are the non-terminal states; FINISHED, FAILED, KILLED, LOST,
ERROR, DROPPED and UNREACHABLE are terminal. -/
inductive RTaskState where
  | staging
  | running
  | finished
  | failed
  | killed
  | lost
  | errorState
  | dropped
  | unreachable
deriving DecidableEq, Repr

/-- Whether a task state is terminal (§4.3). -/
def RTaskState.isTerminal : RTaskState → Bool
  | .staging => false
  | .running => false
  | _ => true

/-- A Task Ledger entry: identity, owning framework, agent, current
status, and whether its latest terminal update has been acknowledged. -/
structure RTask where
  tid : Nat
  fid : Nat
  aid : Nat
  state : RTaskState
  acked : Bool
deriving DecidableEq, Repr

/-- Agent liveness as the reconciliation engine classifies it (§4.5): a
registered agent, an agent currently re-registering after a
coordinator/agent failover (*transitional*), or an agent that has been
removed and is no longer registered.  An agent absent from the map is
unknown. -/
inductive AgentLiveness where
  | registered
  | transitional
  | removed
deriving DecidableEq, Repr

/-- The coordinator state the reconciliation engine consults: the Task
Ledger and the liveness of each known agent. -/
structure ReconState where
  tasks : List RTask
  agents : List (Nat × AgentLiveness)
deriving DecidableEq, Repr

/-- Liveness of an agent; `none` means the agent is unknown. -/
def agentLiveness (s : ReconState) (aid : Nat) : Option AgentLiveness :=
  s.agents.lookup aid

/-- The reason tag on a synthesized status update versus a live one. -/
inductive Reason where
  | reconciliation
  | liveUpdate
deriving DecidableEq, Repr

/-- A status update delivered to the consumer. -/
structure StatusUpdate where
  tid : Nat
  state : RTaskState
  reason : Reason
deriving DecidableEq, Repr

/-- Task Ledger lookup of a consumer's task. -/
def lookupTask (s : ReconState) (fid tid : Nat) : Option RTask :=
  s.tasks.find? (fun t => t.fid == fid && t.tid == tid)

/-- Whether the claimed agent of a reconciliation request is currently in
a transitional (re-registering) state. -/
def claimedTransitional (s : ReconState) : Option Nat → Bool
  | none => false
  | some aid =>
    match agentLiveness s aid with
    | some AgentLiveness.transitional => true
    | _ => false

/-- Modelled from the spec: the per-task resolution of an **explicit**
reconciliation request (§4.5) — the coordinator's `_reconcileTasks` is not
part of this snapshot.  A known task is answered with the Task Ledger's
current state regardless of the state the consumer supplied; an unknown
task whose claimed agent is transitional gets no reply; any other unknown
task (agent unknown, removed, or registered without the task — the last
case fixed by the `UnknownTask` test in `tests/reconciliation_tests.cpp`)
is answered TASK_LOST.  Every reply is tagged RECONCILIATION. -/
def reconcileExplicitOne (s : ReconState) (fid tid : Nat)
    (claimedAgent : Option Nat) (claimedState : RTaskState) :
    Option StatusUpdate :=
  let _ := claimedState
  match lookupTask s fid tid with
  | some t => some { tid := tid, state := t.state, reason := Reason.reconciliation }
  | none =>
    if claimedTransitional s claimedAgent then none
    else some { tid := tid, state := RTaskState.lost, reason := Reason.reconciliation }

/-- Whether an implicit reconciliation reports a task of the consumer:
the task is the consumer's and is non-terminal or
terminal-but-unacknowledged (§4.5). -/
def shouldReport (fid : Nat) (t : RTask) : Bool :=
  t.fid == fid && (!t.state.isTerminal || !t.acked)

/-- The synthesized reply for one task. -/
def mkReply (t : RTask) : StatusUpdate :=
  { tid := t.tid, state := t.state, reason := Reason.reconciliation }

/-- Modelled from the spec: **implicit** reconciliation (§4.5) — reply
with the current status of every known non-terminal task of the consumer,
plus every terminal-but-unacknowledged one; terminal acknowledged tasks
are never re-sent. -/
def reconcileImplicit (s : ReconState) (fid : Nat) : List StatusUpdate :=
  (s.tasks.filter (shouldReport fid)).map mkReply

/-- Modelled from the spec: acknowledging a task's latest update marks its
ledger entry acknowledged (§4.3, §4.5). -/
def acknowledge (s : ReconState) (fid tid : Nat) : ReconState :=
  { s with tasks := s.tasks.map (fun t =>
      if t.fid == fid && t.tid == tid then { t with acked := true } else t) }

/-- Modelled from the spec: a kill of a task unknown to the Task Ledger is
treated as a reconciliation trigger for that task id, answered LOST with
reason RECONCILIATION (§4.5); a kill of a known task synthesizes no such
reply. -/
def killTaskReply (s : ReconState) (fid tid : Nat) : Option StatusUpdate :=
  match lookupTask s fid tid with
  | some _ => none
  | none => some { tid := tid, state := RTaskState.lost, reason := Reason.reconciliation }

/-- Modelled from the spec: an agent's re-registration completing turns
its transitional state into registered (§4.5). -/
def completeReregistration (s : ReconState) (aid : Nat) : ReconState :=
  { s with agents := s.agents.map (fun p =>
      if p.1 == aid then (p.1, AgentLiveness.registered) else p) }

/-- Modelled from the spec: an agent's re-registration timing out removes
the agent, after which reconciliation answers LOST (§4.5). -/
def reregistrationTimeout (s : ReconState) (aid : Nat) : ReconState :=
  { s with agents := s.agents.map (fun p =>
      if p.1 == aid then (p.1, AgentLiveness.removed) else p) }

end Recon

namespace Alloc

/-- A resource vector: named resource quantities. -/
abbrev Resources := List (String × Nat)

/-- A consumer framework as the allocator sees it: identity, role, and
the suppressed flag (§3, §4.2). -/
structure FrameworkA where
  fid : Nat
  role : String
  suppressed : Bool
deriving DecidableEq, Repr

/-- An agent as the allocator sees it: identity, total resources, and the
currently free (unoffered, unallocated) resources (§3, §4.1). -/
structure AgentA where
  aid : Nat
  total : Resources
  free : Resources
deriving DecidableEq, Repr

/-- An outstanding offer (§3). -/
structure OfferA where
  oid : Nat
  fid : Nat
  aid : Nat
  resources : Resources
deriving DecidableEq, Repr

/-- A per-(framework, agent) timed refusal filter installed on decline,
expiring at `expiry` (§4.2): a filter whose expiry does not exceed the
installation time (zero duration) is never active, matching "a
zero-duration filter is equivalent to no filter". -/
structure FilterA where
  fid : Nat
  aid : Nat
  expiry : Nat
deriving DecidableEq, Repr

/-- The allocator state: agents, frameworks, the weight table, active
filters, outstanding offers, the controllable clock (seconds), and the
next fresh offer id. -/
structure AllocState where
  agents : List AgentA
  frameworks : List FrameworkA
  weights : List (String × Rat)
  filters : List FilterA
  offers : List OfferA
  clock : Nat
  nextOid : Nat
deriving DecidableEq, Repr

/-- Whether some filter currently excludes framework `fid` at agent
`aid`: installed and not yet expired (§4.2). -/
def filterActive (s : AllocState) (fid aid : Nat) : Bool :=
  s.filters.any (fun fl => fl.fid == fid && fl.aid == aid && decide (s.clock < fl.expiry))

/-- Whether a framework may be offered agent `aid`'s resources: not
suppressed and not excluded by an active filter (§4.2). -/
def eligible (s : AllocState) (fw : FrameworkA) (aid : Nat) : Bool :=
  !fw.suppressed && !filterActive s fw.fid aid

/-- Total quantity of resource `n` in a vector. -/
def resourceQuantity (r : Resources) (n : String) : Nat :=
  r.foldl (fun acc p => if p.1 == n then acc + p.2 else acc) 0

/-- Cluster-wide total of resource `n` (§4.2). -/
def clusterTotal (s : AllocState) (n : String) : Nat :=
  s.agents.foldl (fun acc ag => acc + resourceQuantity ag.total n) 0

/-- Quantity of resource `n` currently allocated (offered) to framework
`fid` (§4.2). -/
def allocatedQuantity (s : AllocState) (fid : Nat) (n : String) : Nat :=
  s.offers.foldl
    (fun acc o => if o.fid == fid then acc + resourceQuantity o.resources n else acc) 0

/-- The resource names present in the cluster. -/
def resourceNames (s : AllocState) : List String :=
  (s.agents.foldl (fun acc ag => acc ++ ag.total.map Prod.fst) []).eraseDups

/-- Framework `fid`'s share of resource `n` (§4.2). -/
def shareOf (s : AllocState) (fid : Nat) (n : String) : Rat :=
  if clusterTotal s n = 0 then 0
  else (allocatedQuantity s fid n : Rat) / (clusterTotal s n : Rat)

/-- Dominant share: the maximum over resource types of the framework's
share of that type (§4.2). -/
def dominantShare (s : AllocState) (fid : Nat) : Rat :=
  (resourceNames s).foldl (fun acc n => max acc (shareOf s fid n)) 0

/-- The weight of a role, defaulting to 1 (§3). -/
def weightOf (s : AllocState) (role : String) : Rat :=
  match s.weights.lookup role with
  | some w => w
  | none => 1

/-- The DRF comparison used to order frameworks each cycle: ascending
dominant share over weight, ties broken by role name then framework id
(§4.2). -/
def drfLe (s : AllocState) (f g : FrameworkA) : Bool :=
  let kf := dominantShare s f.fid / weightOf s f.role
  let kg := dominantShare s g.fid / weightOf s g.role
  if kf < kg then true
  else if kg < kf then false
  else if f.role < g.role then true
  else if g.role < f.role then false
  else f.fid ≤ g.fid

/-- Insertion into a list sorted by `le`. -/
def insertBy (le : α → α → Bool) (x : α) : List α → List α
  | [] => [x]
  | y :: ys => if le x y then x :: y :: ys else y :: insertBy le x ys

/-- Insertion sort by `le`. -/
def sortBy (le : α → α → Bool) : List α → List α
  | [] => []
  | x :: xs => insertBy le x (sortBy le xs)

/-- Modelled from the spec: the sorted serving order of frameworks for a
cycle; suppressed frameworks are excluded from sorting entirely (§4.2). -/
def sortFrameworks (s : AllocState) : List FrameworkA :=
  sortBy (drfLe s) (s.frameworks.filter (fun f => !f.suppressed))

/-- Modelled from the spec: one step of the allocation walk — an agent
with free resources offers its entire free chunk to the first framework
in the sorted order whose filters do not exclude it (§4.2). -/
def allocAgent (sorted : List FrameworkA) (s : AllocState) (aid : Nat) : AllocState :=
  match s.agents.find? (fun ag => ag.aid == aid) with
  | none => s
  | some ag =>
    if ag.free.isEmpty then s
    else
      match sorted.find? (fun fw => eligible s fw aid) with
      | none => s
      | some fw =>
        { s with
          agents := s.agents.map (fun a => if a.aid == aid then { a with free := [] } else a),
          offers := s.offers ++
            [{ oid := s.nextOid, fid := fw.fid, aid := aid, resources := ag.free }],
          nextOid := s.nextOid + 1 }

/-- Modelled from the spec: one allocation cycle — the hierarchical DRF
allocator is not part of this snapshot.  Walk agents in a stable order;
each agent with free resources offers its entire free chunk to the next
eligible framework in DRF order (§4.2). -/
def allocationCycle (s : AllocState) : AllocState :=
  (s.agents.map (fun a => a.aid)).foldl (allocAgent (sortFrameworks s)) s

/-- Modelled from the spec: declining an offer returns its resources to
the agent's free pool and installs a filter expiring `refuseSeconds` from
now (§4.2); with `refuseSeconds = 0` the installed filter is already
expired, i.e. equivalent to no filter. -/
def declineOffer (s : AllocState) (oid refuseSeconds : Nat) : AllocState :=
  match s.offers.find? (fun o => o.oid == oid) with
  | none => s
  | some o =>
    { s with
      offers := s.offers.filter (fun o2 => o2.oid != oid),
      agents := s.agents.map (fun a =>
        if a.aid == o.aid then { a with free := a.free ++ o.resources } else a),
      filters := s.filters ++
        [{ fid := o.fid, aid := o.aid, expiry := s.clock + refuseSeconds }] }

/-- Modelled from the spec: suppression marks the framework suppressed,
excluding it from allocation until it revives (§4.2). -/
def suppressFw (s : AllocState) (fid : Nat) : AllocState :=
  { s with frameworks := s.frameworks.map (fun f =>
      if f.fid == fid then { f with suppressed := true } else f) }

/-- Modelled from the spec: revival clears all of the framework's filters
and its suppression, and forces an immediate extra allocation cycle
(§4.2). -/
def reviveFw (s : AllocState) (fid : Nat) : AllocState :=
  allocationCycle
    { s with
      filters := s.filters.filter (fun fl => fl.fid != fid),
      frameworks := s.frameworks.map (fun f =>
        if f.fid == fid then { f with suppressed := false } else f) }

/-- Advancing the controllable clock by `d` seconds (§5). -/
def advanceClock (s : AllocState) (d : Nat) : AllocState :=
  { s with clock := s.clock + d }

/-- The default periodic allocation interval, in seconds. -/
def allocationInterval : Nat := 1

end Alloc

namespace Examples

open Weights Recon Alloc

/-- A weight update entry for role `a`. -/
def wiA : WeightInfo := { role := "a", weight := 2 }

/-- An outstanding offer owned by a framework of role `b`. -/
def offerB : WOffer :=
  { offerId := 1, frameworkId := 10, slaveId := 5, role := "b",
    resources := [("cpus", 4)] }

/-- A registered agent holding `offerB`. -/
def slaveB : WSlave := { slaveId := 5, offers := [offerB] }

/-- A master state where role `a` is active and an offer of role `b` is
outstanding. -/
def masterAB : WMasterState :=
  { weights := [("a", 1), ("b", 1)], activeRoles := ["a"],
    registeredSlaves := [slaveB], whitelist := none, recovered := [] }

/-- A master state with no active role. -/
def masterQuiet : WMasterState :=
  { weights := [("a", 1)], activeRoles := [], registeredSlaves := [slaveB],
    whitelist := none, recovered := [] }

/-- A weight update entry with a non-positive weight. -/
def wiBad : WeightInfo := { role := "a", weight := -1 }

/-- A ledger state: one running task, one finished-unacknowledged task and
one finished-acknowledged task of framework 7, and agents 1 (registered),
2 (transitional) and 3 (removed). -/
def reconS : ReconState :=
  { tasks :=
      [ { tid := 100, fid := 7, aid := 1, state := RTaskState.running, acked := false },
        { tid := 101, fid := 7, aid := 1, state := RTaskState.finished, acked := false },
        { tid := 102, fid := 7, aid := 1, state := RTaskState.finished, acked := true } ],
    agents :=
      [ (1, AgentLiveness.registered),
        (2, AgentLiveness.transitional),
        (3, AgentLiveness.removed) ] }

/-- The sole framework of the allocator examples. -/
def fw0 : FrameworkA := { fid := 0, role := "*", suppressed := false }

/-- The declined resources of the allocator examples. -/
def res0 : Resources := [("cpus", 4)]

/-- The sole agent of the allocator examples, fully offered out. -/
def ag0 : AgentA := { aid := 0, total := res0, free := [] }

/-- The outstanding offer of the allocator examples. -/
def offer0 : OfferA := { oid := 0, fid := 0, aid := 0, resources := res0 }

/-- The allocator state of the examples: one framework, one agent whose
entire capacity is outstanding in one offer. -/
def alloc0 : AllocState :=
  { agents := [ag0], frameworks := [fw0], weights := [], filters := [],
    offers := [offer0], clock := 0, nextOid := 1 }

end Examples

section WeightsTheorems

open Weights Examples

/-- The rescind guard is false exactly when no updated role is active. -/
theorem rescindCheck_eq_false_iff (m : WMasterState) (infos : List WeightInfo) :
    rescindCheck m infos = false ↔
      ∀ wi ∈ infos, m.activeRoles.contains wi.role = false := by
  unfold rescindCheck
  simp [List.any_eq_false]

/-- Committing weights does not touch the active roles, the agents, the
whitelist or the recovery log. -/
theorem update_weights_only (m : WMasterState) (infos : List WeightInfo) :
    ({ m with weights :=
        infos.foldl (fun ws wi => setWeight ws wi.role wi.weight) m.weights :
      WMasterState }).activeRoles = m.activeRoles := rfl

/-- C1 (counterexample): updating the weight of active role `a` rescinds
an outstanding offer that belongs to role `b` — the claim that offers of
other roles remain outstanding fails on `rescindOffers`. -/
theorem c1_counterexample :
    masterAB.activeRoles.contains wiA.role = true ∧
    offerB.role ≠ wiA.role ∧
    offerB ∈ slaveB.offers ∧
    slaveB ∈ masterAB.registeredSlaves ∧
    ∀ s ∈ (Weights._update masterAB [wiA]).2.registeredSlaves,
      offerB ∉ s.offers := by
  decide

/-- C1 (amended): for every weight update in which at least one updated
role has an active framework, `_update` rescinds ALL outstanding offers at
every registered agent — regardless of the offers' roles — returning
their resources to the ledger via `recoverResources`. -/
theorem c1_weight_update_rescinds_all_offers
    (m : WMasterState) (infos : List WeightInfo)
    (h : ∃ wi ∈ infos, m.activeRoles.contains wi.role = true) :
    (Weights._update m infos).2.registeredSlaves =
        m.registeredSlaves.map (fun s => { s with offers := [] }) ∧
    (Weights._update m infos).2.recovered =
        m.recovered ++ (m.registeredSlaves.map (fun s => s.offers)).flatten ∧
    (Weights._update m infos).1 = WResponse.ok := by
  obtain ⟨wi, hwi, hact⟩ := h
  have hc : rescindCheck
      { m with weights :=
          infos.foldl (fun ws wi => setWeight ws wi.role wi.weight) m.weights }
      infos = true := by
    unfold rescindCheck
    simp only [List.any_eq_true]
    exact ⟨wi, hwi, hact⟩
  unfold Weights._update rescindOffers
  simp [hc]

/-- C1 (witness for the amended theorem). -/
theorem c1_witness :
    (Weights._update masterAB [wiA]).2.registeredSlaves =
        masterAB.registeredSlaves.map (fun s => { s with offers := [] }) ∧
    (Weights._update masterAB [wiA]).2.recovered =
        masterAB.recovered ++
          (masterAB.registeredSlaves.map (fun s => s.offers)).flatten ∧
    (Weights._update masterAB [wiA]).1 = WResponse.ok :=
  c1_weight_update_rescinds_all_offers masterAB [wiA] (by decide)

/-- C8: a weight update in which none of the updated roles has an active
framework rescinds nothing — the outstanding offers at every agent, and
the recovery log, are exactly as before the update. -/
theorem c8_weight_update_frame
    (m : WMasterState) (infos : List WeightInfo)
    (h : ∀ wi ∈ infos, m.activeRoles.contains wi.role = false) :
    (Weights._update m infos).2.registeredSlaves = m.registeredSlaves ∧
    (Weights._update m infos).2.recovered = m.recovered ∧
    (Weights._update m infos).1 = WResponse.ok := by
  have hc : rescindCheck
      { m with weights :=
          infos.foldl (fun ws wi => setWeight ws wi.role wi.weight) m.weights }
      infos = false := by
    rw [rescindCheck_eq_false_iff]
    exact h
  unfold Weights._update rescindOffers
  simp [hc]

/-- C8 (witness). -/
theorem c8_witness :
    (Weights._update masterQuiet [wiA]).2.registeredSlaves =
        masterQuiet.registeredSlaves ∧
    (Weights._update masterQuiet [wiA]).2.recovered = masterQuiet.recovered ∧
    (Weights._update masterQuiet [wiA]).1 = WResponse.ok :=
  c8_weight_update_frame masterQuiet [wiA] (by decide)

/-- Validation rejects a batch containing a non-positive weight or an
invalid role, before any mutation. -/
theorem validateInfos_error_of_bad
    (validRole : String → Bool) (m : WMasterState) (infos : List WeightInfo)
    (h : ∃ wi ∈ infos, wi.weight ≤ 0 ∨ validRole wi.role.trim = false) :
    ∃ e, validateInfos validRole m infos = Except.error e := by
  induction infos with
  | nil => simp at h
  | cons wi rest ih =>
    unfold validateInfos
    by_cases hv : validRole wi.role.trim = false
    · exact ⟨"Invalid role " ++ wi.role.trim, by simp [hv]⟩
    · have hv' : validRole wi.role.trim = true := by
        cases hvv : validRole wi.role.trim
        · exact absurd hvv hv
        · rfl
      by_cases hw : isWhitelistedRole m wi.role.trim = true
      · by_cases hp : wi.weight ≤ 0
        · exact ⟨"Invalid weight for role " ++ wi.role.trim,
            by simp [hv', hw, hp]⟩
        · have hrest : ∃ x ∈ rest, x.weight ≤ 0 ∨ validRole x.role.trim = false := by
            obtain ⟨x, hx, hbad⟩ := h
            rcases List.mem_cons.mp hx with rfl | hx'
            · rcases hbad with hb | hb
              · exact absurd hb hp
              · exact absurd hb (by simp [hv'])
            · exact ⟨x, hx', hbad⟩
          obtain ⟨e, he⟩ := ih hrest
          refine ⟨e, ?_⟩
          simp [hv', hw, hp, he]
      · have hw' : isWhitelistedRole m wi.role.trim = false := by
          cases hww : isWhitelistedRole m wi.role.trim
          · rfl
          · exact absurd hww hw
        exact ⟨"Unknown role " ++ wi.role.trim, by simp [hv', hw']⟩

/-- C9: an update-weights request containing an entry with a non-positive
weight or an invalid role is rejected synchronously as BadRequest and the
master state — in particular the weight table and every agent's offers —
is left exactly as it was: the whole batch is rejected atomically. -/
theorem c9_bad_weight_rejected_atomically
    (validRole : String → Bool) (authorized : Bool)
    (m : WMasterState) (infos : List WeightInfo)
    (h : ∃ wi ∈ infos, wi.weight ≤ 0 ∨ validRole wi.role.trim = false) :
    ∃ msg, Weights.update validRole authorized m infos =
      (WResponse.badRequest msg, m) := by
  obtain ⟨e, he⟩ := validateInfos_error_of_bad validRole m infos h
  exact ⟨e, by unfold Weights.update; simp [he]⟩

/-- C9 (witness). -/
theorem c9_witness :
    ∃ msg, Weights.update (fun _ => true) true masterAB [wiBad] =
      (WResponse.badRequest msg, masterAB) :=
  c9_bad_weight_rejected_atomically (fun _ => true) true masterAB [wiBad]
    (by decide)

end WeightsTheorems

section ReconTheorems

open Recon Examples

/-- Updating one key of an association list of agent liveness. -/
theorem lookup_map_set (l : List (Nat × AgentLiveness)) (a : Nat)
    (v : AgentLiveness) (h : (l.lookup a).isSome = true) :
    (l.map (fun p => if p.1 == a then (p.1, v) else p)).lookup a = some v := by
  induction l with
  | nil => simp [List.lookup] at h
  | cons p rest ih =>
    rcases p with ⟨k, w⟩
    by_cases hk : k = a
    · subst hk
      simp only [List.map_cons]
      rw [if_pos (beq_self_eq_true k)]
      simp [List.lookup]
    · have h1 : (k == a) = false := beq_eq_false_iff_ne.mpr hk
      have h2 : (a == k) = false := beq_eq_false_iff_ne.mpr (Ne.symm hk)
      simp only [List.map_cons]
      rw [if_neg (by simp [h1])]
      simp only [List.lookup, h2] at h ⊢
      exact ih h

/-- Neither re-registration transition touches the Task Ledger. -/
theorem transition_preserves_tasks (s : ReconState) (a : Nat) :
    (completeReregistration s a).tasks = s.tasks ∧
    (reregistrationTimeout s a).tasks = s.tasks :=
  ⟨rfl, rfl⟩

/-- C3: an explicit reconciliation request for a task unknown to the Task
Ledger whose claimed agent is unknown or removed, and a kill of a task
unknown to the Task Ledger, are each answered with exactly one status
update carrying TASK_LOST and reason RECONCILIATION, as an ordinary
protocol reply. -/
theorem c3_unknown_resolves_to_lost
    (s : ReconState) (fid tid : Nat) (claimedAgent : Option Nat)
    (claimed : RTaskState)
    (hTask : lookupTask s fid tid = none)
    (hAgent : ∀ a, claimedAgent = some a →
      agentLiveness s a = none ∨ agentLiveness s a = some AgentLiveness.removed) :
    reconcileExplicitOne s fid tid claimedAgent claimed =
      some { tid := tid, state := RTaskState.lost,
             reason := Reason.reconciliation } ∧
    killTaskReply s fid tid =
      some { tid := tid, state := RTaskState.lost,
             reason := Reason.reconciliation } := by
  have ht : claimedTransitional s claimedAgent = false := by
    cases claimedAgent with
    | none => rfl
    | some a =>
      rcases hAgent a rfl with h | h <;> simp [claimedTransitional, h]
  constructor
  · simp [reconcileExplicitOne, hTask, ht]
  · simp [killTaskReply, hTask]

/-- C3 (witness): task 999 is unknown and agent 42 is unknown. -/
theorem c3_witness :
    reconcileExplicitOne reconS 7 999 (some 42) RTaskState.staging =
      some { tid := 999, state := RTaskState.lost,
             reason := Reason.reconciliation } ∧
    killTaskReply reconS 7 999 =
      some { tid := 999, state := RTaskState.lost,
             reason := Reason.reconciliation } :=
  c3_unknown_resolves_to_lost reconS 7 999 (some 42) RTaskState.staging
    (by decide)
    (by intro a ha; cases ha; left; decide)

/-- C4: an explicit reconciliation request for a task known to the Task
Ledger is answered with the ledger's current state, with reason
RECONCILIATION, and the reply does not depend on the task state supplied
by the consumer. -/
theorem c4_known_task_authoritative_reply
    (s : ReconState) (fid tid : Nat) (t : RTask) (claimedAgent : Option Nat)
    (h : lookupTask s fid tid = some t) :
    (∀ claimed, reconcileExplicitOne s fid tid claimedAgent claimed =
      some { tid := tid, state := t.state, reason := Reason.reconciliation }) ∧
    (∀ c1 c2, reconcileExplicitOne s fid tid claimedAgent c1 =
      reconcileExplicitOne s fid tid claimedAgent c2) := by
  constructor
  · intro claimed
    simp [reconcileExplicitOne, h]
  · intro c1 c2
    simp [reconcileExplicitOne, h]

/-- C4 (witness): task 100 is known as RUNNING; the claimed states STAGING
and FINISHED produce the same RUNNING reply. -/
theorem c4_witness :
    (∀ claimed, reconcileExplicitOne reconS 7 100 (some 1) claimed =
      some { tid := 100, state := RTaskState.running,
             reason := Reason.reconciliation }) ∧
    (∀ c1 c2, reconcileExplicitOne reconS 7 100 (some 1) c1 =
      reconcileExplicitOne reconS 7 100 (some 1) c2) :=
  c4_known_task_authoritative_reply reconS 7 100
    { tid := 100, fid := 7, aid := 1, state := RTaskState.running,
      acked := false }
    (some 1) (by decide)

/-- C5: an explicit reconciliation request for an unknown task whose
claimed agent is transitional (re-registering) is not answered at all;
once the agent's re-registration times out the same request is answered
TASK_LOST with reason RECONCILIATION, and once it completes the request is
answered. -/
theorem c5_transitional_agent_withholds_reply
    (s : ReconState) (fid tid a : Nat) (claimed : RTaskState)
    (hTask : lookupTask s fid tid = none)
    (hAgent : agentLiveness s a = some AgentLiveness.transitional) :
    reconcileExplicitOne s fid tid (some a) claimed = none ∧
    reconcileExplicitOne (reregistrationTimeout s a) fid tid (some a) claimed =
      some { tid := tid, state := RTaskState.lost,
             reason := Reason.reconciliation } ∧
    (reconcileExplicitOne (completeReregistration s a) fid tid (some a)
      claimed).isSome = true := by
  have hsome : ((s.agents.lookup a).isSome) = true := by
    unfold agentLiveness at hAgent
    rw [hAgent]
    rfl
  have hTimeout : agentLiveness (reregistrationTimeout s a) a =
      some AgentLiveness.removed :=
    lookup_map_set s.agents a AgentLiveness.removed hsome
  have hComplete : agentLiveness (completeReregistration s a) a =
      some AgentLiveness.registered :=
    lookup_map_set s.agents a AgentLiveness.registered hsome
  have hTask2 : lookupTask (reregistrationTimeout s a) fid tid = none := hTask
  have hTask3 : lookupTask (completeReregistration s a) fid tid = none := hTask
  refine ⟨?_, ?_, ?_⟩
  · simp [reconcileExplicitOne, hTask, claimedTransitional, hAgent]
  · simp [reconcileExplicitOne, hTask2, claimedTransitional, hTimeout]
  · simp [reconcileExplicitOne, hTask3, claimedTransitional, hComplete]

/-- C5 (witness): task 999 is unknown and agent 2 is transitional. -/
theorem c5_witness :
    reconcileExplicitOne reconS 7 999 (some 2) RTaskState.staging = none ∧
    reconcileExplicitOne (reregistrationTimeout reconS 2) 7 999 (some 2)
        RTaskState.staging =
      some { tid := 999, state := RTaskState.lost,
             reason := Reason.reconciliation } ∧
    (reconcileExplicitOne (completeReregistration reconS 2) 7 999 (some 2)
        RTaskState.staging).isSome = true :=
  c5_transitional_agent_withholds_reply reconS 7 999 2 RTaskState.staging
    (by decide) (by decide)

/-- C10: an explicit reconciliation request for a task unknown to the Task
Ledger whose claimed agent is registered and not transitional is also
answered TASK_LOST with reason RECONCILIATION — the same resolution as for
an unknown agent. -/
theorem c10_unknown_task_registered_agent_lost
    (s : ReconState) (fid tid a : Nat) (claimed : RTaskState)
    (hTask : lookupTask s fid tid = none)
    (hAgent : agentLiveness s a = some AgentLiveness.registered) :
    reconcileExplicitOne s fid tid (some a) claimed =
      some { tid := tid, state := RTaskState.lost,
             reason := Reason.reconciliation } := by
  simp [reconcileExplicitOne, hTask, claimedTransitional, hAgent]

/-- C10 (witness): task 999 is unknown and agent 1 is registered. -/
theorem c10_witness :
    reconcileExplicitOne reconS 7 999 (some 1) RTaskState.staging =
      some { tid := 999, state := RTaskState.lost,
             reason := Reason.reconciliation } :=
  c10_unknown_task_registered_agent_lost reconS 7 999 1 RTaskState.staging
    (by decide) (by decide)

/-- Reporting a task implies it belongs to the consumer. -/
theorem shouldReport_imp_owner (fid : Nat) (t : RTask)
    (h : shouldReport fid t = true) : (t.fid == fid) = true := by
  unfold shouldReport at h
  simp only [Bool.and_eq_true] at h
  exact h.1

/-- The reply tids of an implicit reconciliation are the tids of the
reported tasks. -/
theorem reconcileImplicit_map_tid (s : ReconState) (fid : Nat) :
    (reconcileImplicit s fid).map (fun u => u.tid) =
      (s.tasks.filter (shouldReport fid)).map (fun t => t.tid) := by
  unfold reconcileImplicit
  rw [List.map_map]
  rfl

/-- C2: an implicit reconciliation request is answered with exactly one
status update, tagged RECONCILIATION, for each task of the consumer that
is non-terminal or terminal-but-unacknowledged; a terminal acknowledged
task is never re-sent, a terminal unacknowledged task is reported until it
is acknowledged and excluded afterwards, and a consumer with no tasks gets
an empty reply set. -/
theorem c2_implicit_reconciliation
    (s : ReconState) (fid : Nat)
    (hnd : ((s.tasks.filter (fun t => t.fid == fid)).map
      (fun t => t.tid)).Nodup) :
    (s.tasks.filter (fun t => t.fid == fid) = [] →
      reconcileImplicit s fid = []) ∧
    (∀ u ∈ reconcileImplicit s fid, u.reason = Reason.reconciliation) ∧
    ((reconcileImplicit s fid).map (fun u => u.tid)).Nodup ∧
    (∀ t ∈ s.tasks, t.fid = fid →
      ((t.state.isTerminal = false ∨ t.acked = false) ↔
        mkReply t ∈ reconcileImplicit s fid)) ∧
    (∀ t ∈ s.tasks, t.fid = fid → t.state.isTerminal = true →
      t.acked = true → ∀ u ∈ reconcileImplicit s fid, u.tid ≠ t.tid) ∧
    (∀ t ∈ s.tasks, t.fid = fid → t.state.isTerminal = true →
      ∀ u ∈ reconcileImplicit (acknowledge s fid t.tid) fid,
        u.tid ≠ t.tid) := by
  have hsub : List.Sublist (s.tasks.filter (shouldReport fid))
      (s.tasks.filter (fun t => t.fid == fid)) :=
    List.monotone_filter_right s.tasks (fun t => shouldReport_imp_owner fid t)
  have hinj := List.inj_on_of_nodup_map hnd
  refine ⟨?_, ?_, ?_, ?_, ?_, ?_⟩
  · intro hempty
    have : s.tasks.filter (shouldReport fid) = [] := by
      rw [hempty] at hsub
      exact List.sublist_nil.mp hsub
    unfold reconcileImplicit
    rw [this]
    rfl
  · intro u hu
    obtain ⟨t, _, rfl⟩ := List.mem_map.mp hu
    rfl
  · rw [reconcileImplicit_map_tid]
    exact hnd.sublist (hsub.map (fun t => t.tid))
  · intro t ht hfid
    constructor
    · intro hq
      apply List.mem_map.mpr
      refine ⟨t, List.mem_filter.mpr ⟨ht, ?_⟩, rfl⟩
      unfold shouldReport
      rcases hq with hq | hq <;> simp [hfid, hq]
    · intro hmem
      obtain ⟨t', ht', heq⟩ := List.mem_map.mp hmem
      have htid : t'.tid = t.tid := by
        have := congrArg (fun u => u.tid) heq
        simpa [mkReply] using this
      have ht'mem := List.mem_filter.mp ht'
      have ht'fid : (t'.fid == fid) = true := shouldReport_imp_owner fid t' ht'mem.2
      have ht'in : t' ∈ s.tasks.filter (fun t => t.fid == fid) :=
        List.mem_filter.mpr ⟨ht'mem.1, ht'fid⟩
      have htin : t ∈ s.tasks.filter (fun t => t.fid == fid) :=
        List.mem_filter.mpr ⟨ht, by simp [hfid]⟩
      have ht'rep := ht'mem.2
      have heq' : t' = t := hinj ht'in htin htid
      subst heq'
      cases hterm : t'.state.isTerminal
      · exact Or.inl rfl
      · cases hack : t'.acked
        · exact Or.inr rfl
        · exfalso
          simp [shouldReport, hterm, hack] at ht'rep
  · intro t ht hfid hterm hack u hu htid
    obtain ⟨t', ht', heq⟩ := List.mem_map.mp hu
    have htid' : t'.tid = t.tid := by
      have := congrArg (fun u => u.tid) heq
      simp [mkReply] at this
      omega
    have ht'mem := List.mem_filter.mp ht'
    have ht'in : t' ∈ s.tasks.filter (fun t => t.fid == fid) :=
      List.mem_filter.mpr ⟨ht'mem.1, shouldReport_imp_owner fid t' ht'mem.2⟩
    have htin : t ∈ s.tasks.filter (fun t => t.fid == fid) :=
      List.mem_filter.mpr ⟨ht, by simp [hfid]⟩
    have ht'rep := ht'mem.2
    have heq' : t' = t := hinj ht'in htin htid'
    subst heq'
    simp [shouldReport, hterm, hack] at ht'rep
  · intro t ht hfid hterm u hu htid
    obtain ⟨t'', ht'', heq⟩ := List.mem_map.mp hu
    have ht''mem := List.mem_filter.mp ht''
    obtain ⟨t', ht', hmap⟩ := List.mem_map.mp ht''mem.1
    have hpres_tid : t''.tid = t'.tid := by
      rw [← hmap]
      by_cases hc : (t'.fid == fid && t'.tid == t.tid) = true <;> simp [hc]
    have hpres_fid : t''.fid = t'.fid := by
      rw [← hmap]
      by_cases hc : (t'.fid == fid && t'.tid == t.tid) = true <;> simp [hc]
    have ht''tid : t''.tid = t.tid := by
      have := congrArg (fun u => u.tid) heq
      simp [mkReply] at this
      omega
    have ht''fid : (t''.fid == fid) = true :=
      shouldReport_imp_owner fid t'' ht''mem.2
    have ht'fid : (t'.fid == fid) = true := by
      rw [← hpres_fid]
      exact ht''fid
    have ht'in : t' ∈ s.tasks.filter (fun t => t.fid == fid) :=
      List.mem_filter.mpr ⟨ht', ht'fid⟩
    have htin : t ∈ s.tasks.filter (fun t => t.fid == fid) :=
      List.mem_filter.mpr ⟨ht, by simp [hfid]⟩
    have ht'eq : t' = t := hinj ht'in htin (by omega)
    have hcond : (t'.fid == fid && t'.tid == t.tid) = true := by
      rw [ht'eq]
      simp [hfid]
    have hrep := ht''mem.2
    simp only [hcond, if_true] at hmap
    rw [← hmap] at hrep
    simp [shouldReport, ht'eq, hterm] at hrep

/-- C2 (witness): framework 7 has a running task 100, a
finished-unacknowledged task 101 and a finished-acknowledged task 102. -/
theorem c2_witness :
    (reconS.tasks.filter (fun t => t.fid == 7) = [] →
      reconcileImplicit reconS 7 = []) ∧
    (∀ u ∈ reconcileImplicit reconS 7, u.reason = Reason.reconciliation) ∧
    ((reconcileImplicit reconS 7).map (fun u => u.tid)).Nodup ∧
    (∀ t ∈ reconS.tasks, t.fid = 7 →
      ((t.state.isTerminal = false ∨ t.acked = false) ↔
        mkReply t ∈ reconcileImplicit reconS 7)) ∧
    (∀ t ∈ reconS.tasks, t.fid = 7 → t.state.isTerminal = true →
      t.acked = true → ∀ u ∈ reconcileImplicit reconS 7, u.tid ≠ t.tid) ∧
    (∀ t ∈ reconS.tasks, t.fid = 7 → t.state.isTerminal = true →
      ∀ u ∈ reconcileImplicit (acknowledge reconS 7 t.tid) 7,
        u.tid ≠ t.tid) :=
  c2_implicit_reconciliation reconS 7 (by decide)

end ReconTheorems

section AllocTheorems

open Alloc Examples

/-- C6: a framework that declined its offer with a one-hour filter
receives no offer from an allocation cycle half an hour later; if it also
suppressed offers it receives none even after the filter expires (100
minutes later); reviving clears its filters and suppression, forces an
immediate allocation, and the framework is re-offered the identical
resource vector without waiting for filter expiry or the next periodic
cycle. -/
theorem c6_filter_suppress_revive
    (f : FrameworkA) (ag : AgentA) (o : OfferA) (s : AllocState)
    (r : Resources)
    (hfw : s.frameworks = [f]) (hsup : f.suppressed = false)
    (hag : s.agents = [ag]) (hfree : ag.free = [])
    (hofid : o.fid = f.fid) (hoaid : o.aid = ag.aid) (hores : o.resources = r)
    (hr : r ≠ []) (hoff : s.offers = [o]) (hfil : s.filters = [])
    (hclock : s.clock = 0) :
    (allocationCycle
      (advanceClock (declineOffer s o.oid 3600) 1800)).offers = [] ∧
    (allocationCycle
      (advanceClock (suppressFw (declineOffer s o.oid 3600) f.fid)
        6000)).offers = [] ∧
    (reviveFw (advanceClock (declineOffer s o.oid 3600) 1800) f.fid).filters
      = [] ∧
    (∃ o2, (reviveFw (advanceClock (declineOffer s o.oid 3600) 1800)
        f.fid).offers = [o2] ∧
      o2.resources = r ∧ o2.fid = f.fid ∧ o2.aid = ag.aid) ∧
    (∃ o3, (reviveFw
        (advanceClock (suppressFw (declineOffer s o.oid 3600) f.fid) 6000)
        f.fid).offers = [o3] ∧
      o3.resources = r ∧ o3.fid = f.fid ∧ o3.aid = ag.aid) := by
  obtain ⟨hd, tl, rfl⟩ := List.exists_cons_of_ne_nil hr
  refine ⟨?_, ?_, ?_, ?_, ?_⟩
  · simp [allocationCycle, allocAgent, sortFrameworks, sortBy, insertBy,
      eligible, filterActive, declineOffer, advanceClock,
      hfw, hsup, hag, hfree, hofid, hoaid, hores, hoff, hfil, hclock]
  · simp [allocationCycle, allocAgent, sortFrameworks, sortBy, insertBy,
      eligible, filterActive, declineOffer, advanceClock, suppressFw,
      hfw, hsup, hag, hfree, hofid, hoaid, hores, hoff, hfil, hclock]
  · simp [reviveFw, allocationCycle, allocAgent, sortFrameworks, sortBy,
      insertBy, eligible, filterActive, declineOffer, advanceClock,
      hfw, hsup, hag, hfree, hofid, hoaid, hores, hoff, hfil, hclock]
  · refine ⟨⟨s.nextOid, f.fid, ag.aid, hd :: tl⟩, ?_, rfl, rfl, rfl⟩
    simp [reviveFw, allocationCycle, allocAgent, sortFrameworks, sortBy,
      insertBy, eligible, filterActive, declineOffer, advanceClock,
      hfw, hsup, hag, hfree, hofid, hoaid, hores, hoff, hfil, hclock]
  · refine ⟨⟨s.nextOid, f.fid, ag.aid, hd :: tl⟩, ?_, rfl, rfl, rfl⟩
    simp [reviveFw, allocationCycle, allocAgent, sortFrameworks, sortBy,
      insertBy, eligible, filterActive, declineOffer, advanceClock,
      suppressFw,
      hfw, hsup, hag, hfree, hofid, hoaid, hores, hoff, hfil, hclock]

/-- C6 (witness): the one-framework, one-agent state `alloc0`. -/
theorem c6_witness :
    (allocationCycle
      (advanceClock (declineOffer alloc0 offer0.oid 3600) 1800)).offers = [] ∧
    (allocationCycle
      (advanceClock (suppressFw (declineOffer alloc0 offer0.oid 3600)
        fw0.fid) 6000)).offers = [] ∧
    (reviveFw (advanceClock (declineOffer alloc0 offer0.oid 3600) 1800)
      fw0.fid).filters = [] ∧
    (∃ o2, (reviveFw (advanceClock (declineOffer alloc0 offer0.oid 3600)
        1800) fw0.fid).offers = [o2] ∧
      o2.resources = res0 ∧ o2.fid = fw0.fid ∧ o2.aid = ag0.aid) ∧
    (∃ o3, (reviveFw
        (advanceClock (suppressFw (declineOffer alloc0 offer0.oid 3600)
          fw0.fid) 6000) fw0.fid).offers = [o3] ∧
      o3.resources = res0 ∧ o3.fid = fw0.fid ∧ o3.aid = ag0.aid) :=
  c6_filter_suppress_revive fw0 ag0 offer0 alloc0 res0
    rfl rfl rfl rfl rfl rfl rfl (by decide) rfl rfl rfl

/-- C7: declining an offer with a zero-duration filter returns the
offered resources to the agent's free pool, and the very next allocation
cycle, one allocation interval later, re-offers the framework a resource
vector exactly equal to the declined one. -/
theorem c7_zero_filter_round_trip
    (f : FrameworkA) (ag : AgentA) (o : OfferA) (s : AllocState)
    (r : Resources)
    (hfw : s.frameworks = [f]) (hsup : f.suppressed = false)
    (hag : s.agents = [ag]) (hfree : ag.free = [])
    (hofid : o.fid = f.fid) (hoaid : o.aid = ag.aid) (hores : o.resources = r)
    (hr : r ≠ []) (hoff : s.offers = [o]) (hfil : s.filters = [])
    (hclock : s.clock = 0) :
    (declineOffer s o.oid 0).offers = [] ∧
    (declineOffer s o.oid 0).agents = [{ ag with free := r }] ∧
    (∃ o2, (allocationCycle
        (advanceClock (declineOffer s o.oid 0) allocationInterval)).offers
        = [o2] ∧
      o2.resources = r ∧ o2.fid = f.fid ∧ o2.aid = ag.aid) := by
  obtain ⟨hd, tl, rfl⟩ := List.exists_cons_of_ne_nil hr
  refine ⟨?_, ?_, ?_⟩
  · simp [declineOffer, hoff, hoaid, hores, hag, hfree, hfil, hclock]
  · simp [declineOffer, hoff, hoaid, hores, hag, hfree, hfil, hclock]
  · refine ⟨⟨s.nextOid, f.fid, ag.aid, hd :: tl⟩, ?_, rfl, rfl, rfl⟩
    simp [allocationCycle, allocAgent, sortFrameworks, sortBy, insertBy,
      eligible, filterActive, declineOffer, advanceClock,
      allocationInterval,
      hfw, hsup, hag, hfree, hofid, hoaid, hores, hoff, hfil, hclock]

/-- C7 (witness): the one-framework, one-agent state `alloc0`. -/
theorem c7_witness :
    (declineOffer alloc0 offer0.oid 0).offers = [] ∧
    (declineOffer alloc0 offer0.oid 0).agents
      = [{ ag0 with free := res0 }] ∧
    (∃ o2, (allocationCycle
        (advanceClock (declineOffer alloc0 offer0.oid 0)
          allocationInterval)).offers = [o2] ∧
      o2.resources = res0 ∧ o2.fid = fw0.fid ∧ o2.aid = ag0.aid) :=
  c7_zero_filter_round_trip fw0 ag0 offer0 alloc0 res0
    rfl rfl rfl rfl rfl rfl rfl (by decide) rfl rfl rfl

end AllocTheorems
